import Mathlib

set_option maxRecDepth 100000
set_option autoImplicit false

/-!
Verification development for `shared/users.py` (user directory and
HOTP/TOTP/HMAC authentication engine).

Bytes are modelled as `List Nat` with every element below 256; machine
words are `Nat` reduced modulo `2 ^ 32` where the code overflows.  The
hash primitives (`tcc.sha1`, `tcc.sha256`, the `hmac` module) are external
collaborators of the repository; they are given here as executable
reference implementations of SHA-1, SHA-256 and HMAC so that the one-time
password pipeline can be evaluated on concrete inputs.
-/

def u32 (x : Nat) : Nat := x % 4294967296

def rotl32 (n x : Nat) : Nat := u32 ((x <<< n) + (x >>> (32 - n)) % 2 ^ n)

def rotr32 (n x : Nat) : Nat := u32 ((x >>> n) + (x % 2 ^ n) <<< (32 - n))

/-- Big-endian bytes of a 32-bit word. -/
def wordBytesBE (w : Nat) : List Nat :=
  [w / 16777216 % 256, w / 65536 % 256, w / 256 % 256, w % 256]

/-- Big-endian 8-byte encoding of a 64-bit counter (`ustruct.pack` with a
`>Q` format). -/
def be64 (n : Nat) : List Nat :=
  [n / 2 ^ 56 % 256, n / 2 ^ 48 % 256, n / 2 ^ 40 % 256, n / 2 ^ 32 % 256,
   n / 2 ^ 24 % 256, n / 2 ^ 16 % 256, n / 2 ^ 8 % 256, n % 256]

/-- Merkle-Damgard padding shared by SHA-1 and SHA-256: append `128`,
zero bytes up to 56 mod 64, then the bit length as 8 big-endian bytes. -/
def padMsg (msg : List Nat) : List Nat :=
  msg ++ [128] ++ List.replicate ((119 - msg.length % 64) % 64) 0 ++ be64 (8 * msg.length)

/-- Group bytes into big-endian 32-bit words. -/
def beWords : List Nat → List Nat
  | a :: b :: c :: d :: rest => (a * 16777216 + b * 65536 + c * 256 + d) :: beWords rest
  | _ => []

/-- Split a word list into 16-word blocks. -/
def chunks16 : List Nat → List (List Nat)
  | w0 :: w1 :: w2 :: w3 :: w4 :: w5 :: w6 :: w7 ::
    w8 :: w9 :: w10 :: w11 :: w12 :: w13 :: w14 :: w15 :: rest =>
      [w0, w1, w2, w3, w4, w5, w6, w7, w8, w9, w10, w11, w12, w13, w14, w15] ::
        chunks16 rest
  | _ => []

def mdBlocks (msg : List Nat) : List (List Nat) := chunks16 (beWords (padMsg msg))

/-- SHA-1 message-schedule expansion.  `recent` holds the previous 16
words most-recent-first; `out` accumulates the schedule in reverse. -/
def sha1ExpandAux : Nat → List Nat → List Nat → List Nat
  | 0, _, out => out.reverse
  | n + 1, recent, out =>
      let x := rotl32 1 (recent.getD 2 0 ^^^ recent.getD 7 0 ^^^
        recent.getD 13 0 ^^^ recent.getD 15 0)
      sha1ExpandAux n (x :: recent.take 15) (x :: out)

def sha1Schedule (ws : List Nat) : List Nat := sha1ExpandAux 64 ws.reverse ws.reverse

def sha1F (i b c d : Nat) : Nat :=
  if i < 20 then (b &&& c) ||| ((b ^^^ 4294967295) &&& d)
  else if i < 40 then b ^^^ c ^^^ d
  else if i < 60 then (b &&& c) ||| (b &&& d) ||| (c &&& d)
  else b ^^^ c ^^^ d

def sha1KC (i : Nat) : Nat :=
  if i < 20 then 1518500249
  else if i < 40 then 1859775393
  else if i < 60 then 2400959708
  else 3395469782

def sha1Rounds : List Nat → Nat → Nat × Nat × Nat × Nat × Nat → Nat × Nat × Nat × Nat × Nat
  | [], _, st => st
  | wi :: rest, i, (a, b, c, d, e) =>
      sha1Rounds rest (i + 1)
        (u32 (rotl32 5 a + sha1F i b c d + e + sha1KC i + wi), a, rotl32 30 b, c, d)

def sha1Compress (h : List Nat) (block : List Nat) : List Nat :=
  match sha1Rounds (sha1Schedule block) 0
      (h.getD 0 0, h.getD 1 0, h.getD 2 0, h.getD 3 0, h.getD 4 0) with
  | (a, b, c, d, e) =>
      [u32 (h.getD 0 0 + a), u32 (h.getD 1 0 + b), u32 (h.getD 2 0 + c),
       u32 (h.getD 3 0 + d), u32 (h.getD 4 0 + e)]

/-- SHA-1 digest (20 bytes) of a byte list; reference implementation of
the external `tcc.sha1` primitive. -/
def sha1 (msg : List Nat) : List Nat :=
  (((mdBlocks msg).foldl sha1Compress
      [1732584193, 4023233417, 2562383102, 271733878, 3285377520]).map wordBytesBE).flatten

def sha256K : List Nat :=
  [1116352408, 1899447441, 3049323471, 3921009573, 961987163, 1508970993, 2453635748,
   2870763221, 3624381080, 310598401, 607225278, 1426881987, 1925078388, 2162078206,
   2614888103, 3248222580, 3835390401, 4022224774, 264347078, 604807628, 770255983,
   1249150122, 1555081692, 1996064986, 2554220882, 2821834349, 2952996808, 3210313671,
   3336571891, 3584528711, 113926993, 338241895, 666307205, 773529912, 1294757372,
   1396182291, 1695183700, 1986661051, 2177026350, 2456956037, 2730485921, 2820302411,
   3259730800, 3345764771, 3516065817, 3600352804, 4094571909, 275423344, 430227734,
   506948616, 659060556, 883997877, 958139571, 1322822218, 1537002063, 1747873779,
   1955562222, 2024104815, 2227730452, 2361852424, 2428436474, 2756734187, 3204031479,
   3329325298]

def sha256ExpandAux : Nat → List Nat → List Nat → List Nat
  | 0, _, out => out.reverse
  | n + 1, recent, out =>
      let w15 := recent.getD 14 0
      let w2 := recent.getD 1 0
      let s0 := rotr32 7 w15 ^^^ rotr32 18 w15 ^^^ (w15 >>> 3)
      let s1 := rotr32 17 w2 ^^^ rotr32 19 w2 ^^^ (w2 >>> 10)
      let x := u32 (recent.getD 15 0 + s0 + recent.getD 6 0 + s1)
      sha256ExpandAux n (x :: recent.take 15) (x :: out)

def sha256Schedule (ws : List Nat) : List Nat := sha256ExpandAux 48 ws.reverse ws.reverse

def sha256Rounds :
    List (Nat × Nat) → Nat × Nat × Nat × Nat × Nat × Nat × Nat × Nat →
      Nat × Nat × Nat × Nat × Nat × Nat × Nat × Nat
  | [], st => st
  | (ki, wi) :: rest, (a, b, c, d, e, f, g, hh) =>
      let S1 := rotr32 6 e ^^^ rotr32 11 e ^^^ rotr32 25 e
      let ch := (e &&& f) ^^^ ((e ^^^ 4294967295) &&& g)
      let t1 := u32 (hh + S1 + ch + ki + wi)
      let S0 := rotr32 2 a ^^^ rotr32 13 a ^^^ rotr32 22 a
      let mj := (a &&& b) ^^^ (a &&& c) ^^^ (b &&& c)
      sha256Rounds rest (u32 (t1 + S0 + mj), a, b, c, u32 (d + t1), e, f, g)

def sha256Compress (h : List Nat) (block : List Nat) : List Nat :=
  match sha256Rounds (sha256K.zip (sha256Schedule block))
      (h.getD 0 0, h.getD 1 0, h.getD 2 0, h.getD 3 0,
       h.getD 4 0, h.getD 5 0, h.getD 6 0, h.getD 7 0) with
  | (a, b, c, d, e, f, g, hh) =>
      [u32 (h.getD 0 0 + a), u32 (h.getD 1 0 + b), u32 (h.getD 2 0 + c),
       u32 (h.getD 3 0 + d), u32 (h.getD 4 0 + e), u32 (h.getD 5 0 + f),
       u32 (h.getD 6 0 + g), u32 (h.getD 7 0 + hh)]

/-- SHA-256 digest (32 bytes) of a byte list; reference implementation of
the external `tcc.sha256` primitive. -/
def sha256 (msg : List Nat) : List Nat :=
  (((mdBlocks msg).foldl sha256Compress
      [1779033703, 3144134277, 1013904242, 2773480762, 1359893119, 2600822924, 528734635, 1541459225]).map wordBytesBE).flatten

/-- HMAC (RFC 2104) with a 64-byte block size, as implemented by the
`hmac` module used in the source (`hmac.new(key, msg, hash)`). -/
def hmacWith (hash : List Nat → List Nat) (key msg : List Nat) : List Nat :=
  let k0 := if 64 < key.length then hash key else key
  let kp := k0 ++ List.replicate (64 - k0.length) 0
  hash ((kp.map (fun b => b ^^^ 92)) ++ hash ((kp.map (fun b => b ^^^ 54)) ++ msg))

def hmac_sha1 (key msg : List Nat) : List Nat := hmacWith sha1 key msg

def hmac_sha256 (key msg : List Nat) : List Nat := hmacWith sha256 key msg

/-- ASCII bytes of a string (`str.encode` in the source). -/
def strBytes (s : String) : List Nat := s.data.map Char.toNat

example : sha1 (strBytes "abc") =
    [169, 153, 62, 54, 71, 6, 129, 106, 186, 62,
     37, 113, 120, 80, 194, 108, 156, 208, 216, 157] := by decide

example : sha256 (strBytes "abc") =
    [186, 120, 22, 191, 143, 1, 207, 234, 65, 65, 64, 222,
     93, 174, 34, 35, 176, 3, 97, 163, 150, 23, 122, 156,
     180, 16, 255, 97, 242, 0, 21, 173] := by decide

/-- The six ASCII digit bytes produced by the `%06d` format applied to a
value below 1000000. -/
def sixDigitBytes (n : Nat) : List Nat :=
  [48 + n / 100000 % 10, 48 + n / 10000 % 10, 48 + n / 1000 % 10,
   48 + n / 100 % 10, 48 + n / 10 % 10, 48 + n % 10]

/-- Dynamic truncation of `calc_hotp` (shared/users.py:39-44): HMAC-SHA1
over the 8-byte big-endian counter, offset from the low nibble of the
last digest byte, 4 bytes big-endian (the `>I` unpack) with the top bit
masked off. -/
def hotp_value (secret : List Nat) (counter : Nat) : Nat :=
  let d := hmac_sha1 secret (be64 counter)
  let o := d.getD 19 0 &&& 15
  (d.getD o 0 * 16777216 + d.getD (o + 1) 0 * 65536 +
    d.getD (o + 2) 0 * 256 + d.getD (o + 3) 0) &&& 2147483647

/-- shared/users.py:23-47, `calc_hotp(secret, counter)`: the RFC 4226
one-time password, returned as the 6-digit decimal string
`%06d % (token % 1000000)`. -/
def calc_hotp (secret : List Nat) (counter : Nat) : String :=
  String.mk ((sixDigitBytes (hotp_value secret counter % 1000000)).map Char.ofNat)

example : calc_hotp (strBytes "abcdefghij") 1 = "765705" := by decide
example : calc_hotp (strBytes "abcdefghij") 2 = "816065" := by decide

inductive AuthMode
  | totp
  | hotp
  | hmac
deriving DecidableEq

/-- One stored user record: `[auth_mode, base32(secret), last_counter]`
(shared/users.py:62-63, the `UserInfo` namedtuple). -/
structure UserInfo where
  auth_mode : AuthMode
  secret : List Nat
  last_counter : Nat
deriving DecidableEq

/-- Modelled from the spec: `tcc.codecs.b32_encode` is an external
primitive (import `tcc`, not under src/); section 4.1 specifies only that
encode and decode are exact inverses used at the storage boundary and
that internal comparisons always operate on raw bytes, so the transport
codec is modelled as the identity on byte lists. -/
def b32encode (b : List Nat) : List Nat := b

/-- Modelled from the spec: `tcc.codecs.b32_decode`, exact inverse of
`b32encode` (section 4.1); see the comment there. -/
def b32decode (s : List Nat) : List Nat := s

/-- The user directory persisted under the single settings key `usr`: an
insertion-ordered mapping from username to record, modelled as an
association list. -/
abbrev UsersMap := List (String × UserInfo)

/-- Python dict indexing assignment `u[username] = v`: replace in place
if the key exists, else append. -/
def dictSet (st : UsersMap) (k : String) (v : UserInfo) : UsersMap :=
  if st.any (fun p => p.1 == k) then st.map (fun p => if p.1 == k then (k, v) else p)
  else st ++ [(k, v)]

/-- shared/users.py:73-77, `Users.lookup`: find by username; note that
`UserInfo(*rv)` builds a fresh copy of the stored triple. -/
def Users.lookup (st : UsersMap) (username : String) : Option UserInfo :=
  (st.find? (fun p => p.1 == username)).map (fun p => p.2)

/-- shared/users.py:135-146, `Users.pick_secret`: `rng` stands for the 10
bytes filled in by the external `ckcc.rng_bytes`, and `kdf` for
`calc_hmac_key` (whose PBKDF2 and device-serial inputs are external
collaborators).  Returns the stored secret and the displayed string. -/
def Users.pick_secret (kdf : List Nat → List Nat) (rng : List Nat) (auth_mode : AuthMode) :
    List Nat × List Nat :=
  let picked := b32encode rng
  (if auth_mode = AuthMode.hmac then kdf picked else rng, picked)

/-- shared/users.py:88-123, `Users.create`.  `maxUsernameLen` stands for
the constant `MAX_USERNAME_LEN` imported from `public_constants` (repo
code not under src/; the spec says only that it is the configured
maximum, so it is kept as a parameter).  The assertion failures carry the
source's assertion messages; the two secret-length assertions have no
message.  `MAX_NUMBER_USERS` is 30 (shared/users.py:21). -/
def Users.create (maxUsernameLen : Nat) (kdf : List Nat → List Nat) (rng : List Nat)
    (st : UsersMap) (username : String) (auth_mode : AuthMode) (secret : List Nat) :
    Except String (UsersMap × List Nat) :=
  if ¬ (1 < username.length ∧ username.length ≤ maxUsernameLen) then Except.error "badlen"
  else if username.data.getD 0 ' ' = '_' then Except.error "reserved"
  else if (Users.lookup st username).isSome then Except.error "exists"
  else if secret ≠ [] ∧ auth_mode = AuthMode.hmac ∧ secret.length ≠ 32 then Except.error ""
  else if secret ≠ [] ∧ auth_mode ≠ AuthMode.hmac ∧
      ¬ (secret.length = 10 ∨ secret.length = 20) then Except.error ""
  else
    let sp := if secret = [] then Users.pick_secret kdf rng auth_mode else (secret, [])
    if st.length < 30 then
      Except.ok (dictSet st username ⟨auth_mode, b32encode sp.1, 0⟩, sp.2)
    else Except.error "too many"

/-- shared/users.py:172-175: HOTP candidate counters
`[last_counter+1 .. last_counter+9]`, plus `0` appended when
`last_counter == 0`. -/
def hotp_candidates (last_counter : Nat) : List Nat :=
  ((List.range 9).map (fun i => last_counter + (i + 1))) ++
    (if last_counter = 0 then [0] else [])

/-- shared/users.py:184-185: TOTP candidate slots
`[totp_time - i for i in range(0, 3) if totp_time - i > last_counter]`. -/
def totp_candidates (totp_time last_counter : Nat) : List Nat :=
  (List.range 3).filterMap
    (fun i => if last_counter < totp_time - i then some (totp_time - i) else none)

/-- shared/users.py:189-200, the candidate loop of `Users.auth_okay`.  On
the first matching candidate the source rewrites entry 2 of a local
`list(u)` copy of the looked-up record and calls `settings.changed()`;
the mapping stored under the settings key is never written back, so the
directory is returned unchanged in every branch. -/
def scanCandidates (st : UsersMap) (secret token : List Nat) : List Nat → String × UsersMap
  | [] => ("mismatch", st)
  | c :: rest =>
      if strBytes (calc_hotp secret c) = token then ("", st)
      else scanCandidates st secret token rest

/-- The `psbt_hash or bytes(32)` default: 32 zero bytes when the hash is
absent or empty. -/
def psbtOrZeros (psbt_hash : Option (List Nat)) : List Nat :=
  match psbt_hash with
  | none => List.replicate 32 0
  | some h => if h = [] then List.replicate 32 0 else h

/-- shared/users.py:148-202, `Users.auth_okay(username, token,
totp_time=None, psbt_hash=None)`.  Result `none` models the uncaught
`TypeError` raised by the comparison `totp_time < 52622505` when
`totp_time` is `None`; otherwise the result is the returned problem
string (empty on success) paired with the stored directory after the
call. -/
def Users.auth_okay (st : UsersMap) (username : String) (token : List Nat)
    (totp_time : Option Nat) (psbt_hash : Option (List Nat)) :
    Option (String × UsersMap) :=
  match Users.lookup st username with
  | none => some ("unknown", st)
  | some u =>
      let secret := b32decode u.secret
      if u.auth_mode = AuthMode.hmac then
        let expect := hmac_sha256 secret (psbtOrZeros psbt_hash)
        some ((if expect ≠ token then "mismatch" else ""), st)
      else if token.length ≠ 6 then
        some ("expect otp", st)
      else if u.auth_mode = AuthMode.hotp then
        some (scanCandidates st secret token (hotp_candidates u.last_counter))
      else
        match totp_time with
        | none => none
        | some t =>
          if t < 52622505 then some ("range", st)
          else
            let cs := totp_candidates t u.last_counter
            if cs = [] then some ("replay", st)
            else some (scanCandidates st secret token cs)

theorem char_toNat_ofNat (n : Nat) (h : n < 55296) : (Char.ofNat n).toNat = n := by
  have hv : n.isValidChar := Or.inl h
  simp only [Char.ofNat, hv, Char.ofNatAux, Char.toNat, dif_pos]
  rfl

theorem strBytes_calc_hotp (s : List Nat) (c : Nat) :
    strBytes (calc_hotp s c) = sixDigitBytes (hotp_value s c % 1000000) := by
  have hchar : ∀ m : Nat, (Char.ofNat (48 + m % 10)).toNat = 48 + m % 10 :=
    fun m => char_toNat_ofNat _ (by omega)
  simp only [calc_hotp, strBytes, sixDigitBytes, List.map_cons, List.map_nil, hchar]

theorem calc_hotp_digits (s : List Nat) (c : Nat) :
    ∀ x ∈ strBytes (calc_hotp s c), 48 ≤ x ∧ x ≤ 57 := by
  rw [strBytes_calc_hotp]
  simp only [sixDigitBytes, List.mem_cons, List.not_mem_nil, or_false]
  rintro x (rfl | rfl | rfl | rfl | rfl | rfl) <;> omega

theorem calc_hotp_len (s : List Nat) (c : Nat) :
    (strBytes (calc_hotp s c)).length = 6 := by
  rw [strBytes_calc_hotp]; rfl

theorem scanCandidates_snd (st : UsersMap) (secret token : List Nat) (cs : List Nat) :
    (scanCandidates st secret token cs).2 = st := by
  induction cs with
  | nil => rfl
  | cons c rest ih =>
      by_cases h : strBytes (calc_hotp secret c) = token <;>
        simp [scanCandidates, h, ih]

theorem scanCandidates_mismatch (st : UsersMap) (secret token : List Nat) (cs : List Nat)
    (h : ∀ c ∈ cs, strBytes (calc_hotp secret c) ≠ token) :
    scanCandidates st secret token cs = ("mismatch", st) := by
  induction cs with
  | nil => rfl
  | cons c rest ih =>
      have hc := h c (by simp)
      simp only [scanCandidates, if_neg hc]
      exact ih (fun d hd => h d (by simp [hd]))

theorem scanCandidates_hit (st : UsersMap) (secret token : List Nat) (cs : List Nat)
    (c : Nat) (hc : c ∈ cs) (h : strBytes (calc_hotp secret c) = token) :
    scanCandidates st secret token cs = ("", st) := by
  induction cs with
  | nil => cases hc
  | cons d rest ih =>
      by_cases hd : strBytes (calc_hotp secret d) = token
      · simp [scanCandidates, hd]
      · rcases List.mem_cons.mp hc with rfl | hmem
        · exact absurd h hd
        · simp only [scanCandidates, if_neg hd]
          exact ih hmem

theorem auth_okay_unknown (st : UsersMap) (username : String) (token : List Nat)
    (tt : Option Nat) (ph : Option (List Nat)) (hu : Users.lookup st username = none) :
    Users.auth_okay st username token tt ph = some ("unknown", st) := by
  simp only [Users.auth_okay, hu]

theorem auth_okay_hmac (st : UsersMap) (username : String) (u : UserInfo) (token : List Nat)
    (tt : Option Nat) (ph : Option (List Nat))
    (hu : Users.lookup st username = some u) (hm : u.auth_mode = AuthMode.hmac) :
    Users.auth_okay st username token tt ph =
      some ((if hmac_sha256 (b32decode u.secret) (psbtOrZeros ph) = token
        then "" else "mismatch"), st) := by
  simp only [Users.auth_okay, hu, hm, if_pos rfl]
  by_cases h : hmac_sha256 (b32decode u.secret) (psbtOrZeros ph) = token <;> simp [h]

theorem auth_okay_badlen (st : UsersMap) (username : String) (u : UserInfo) (token : List Nat)
    (tt : Option Nat) (ph : Option (List Nat))
    (hu : Users.lookup st username = some u) (hm : u.auth_mode ≠ AuthMode.hmac)
    (hl : token.length ≠ 6) :
    Users.auth_okay st username token tt ph = some ("expect otp", st) := by
  simp only [Users.auth_okay, hu, if_neg hm, if_pos hl]

theorem auth_okay_hotp (st : UsersMap) (username : String) (u : UserInfo) (token : List Nat)
    (tt : Option Nat) (ph : Option (List Nat))
    (hu : Users.lookup st username = some u) (hm : u.auth_mode = AuthMode.hotp)
    (hl : token.length = 6) :
    Users.auth_okay st username token tt ph =
      some (scanCandidates st (b32decode u.secret) token (hotp_candidates u.last_counter)) := by
  simp [Users.auth_okay, hu, hl, hm]

theorem auth_okay_totp_none (st : UsersMap) (username : String) (u : UserInfo)
    (token : List Nat) (ph : Option (List Nat))
    (hu : Users.lookup st username = some u) (hm : u.auth_mode = AuthMode.totp)
    (hl : token.length = 6) :
    Users.auth_okay st username token none ph = none := by
  simp [Users.auth_okay, hu, hl, hm]

theorem auth_okay_totp_range (st : UsersMap) (username : String) (u : UserInfo)
    (token : List Nat) (t : Nat) (ph : Option (List Nat))
    (hu : Users.lookup st username = some u) (hm : u.auth_mode = AuthMode.totp)
    (hl : token.length = 6) (ht : t < 52622505) :
    Users.auth_okay st username token (some t) ph = some ("range", st) := by
  simp [Users.auth_okay, hu, hl, hm, ht]

theorem auth_okay_totp_main (st : UsersMap) (username : String) (u : UserInfo)
    (token : List Nat) (t : Nat) (ph : Option (List Nat))
    (hu : Users.lookup st username = some u) (hm : u.auth_mode = AuthMode.totp)
    (hl : token.length = 6) (ht : 52622505 ≤ t) :
    Users.auth_okay st username token (some t) ph =
      (if totp_candidates t u.last_counter = [] then some ("replay", st)
       else some (scanCandidates st (b32decode u.secret) token
         (totp_candidates t u.last_counter))) := by
  have ht2 : ¬ (t < 52622505) := by omega
  simp only [Users.auth_okay, hu, hl, hm]
  simp [ht2]

/-- A stored HOTP user as produced by `Users.create`: secret
`b"abcdefghij"` (the docstring vector of `calc_hotp`), `last_counter`
0. -/
def aliceSecret : List Nat := strBytes "abcdefghij"

def hotpSt0 : UsersMap := [("alice", ⟨AuthMode.hotp, b32encode aliceSecret, 0⟩)]

/-- C1: the spec says a successful authentication persists
`last_counter = candidate` as its sole side effect.  The code contradicts
its own docstring (`SIDE-EFFECT: updates last-counter`): the matching
branch rewrites a `list(u)` copy and only calls `settings.changed()`, so
after a successful HOTP authentication with the code for counter 1 the
stored directory is unchanged and still maps alice to `last_counter = 0`. -/
theorem c1_success_does_not_persist_counter :
    strBytes (calc_hotp aliceSecret 1) = strBytes "765705" ∧
    Users.auth_okay hotpSt0 "alice" (strBytes "765705") none none = some ("", hotpSt0) ∧
    (Users.lookup hotpSt0 "alice").map UserInfo.last_counter = some 0 :=
  ⟨by decide, by decide, by decide⟩

/-- C2: because the counter update is lost, replaying the very same code
for counter 1 succeeds a second time against the directory returned by
the first call, violating the strictly-increasing-counters claim that the
spec and the source comments both state. -/
theorem c2_same_code_accepted_twice :
    Users.auth_okay hotpSt0 "alice" (strBytes "765705") none none = some ("", hotpSt0) ∧
    (Users.auth_okay hotpSt0 "alice" (strBytes "765705") none none).bind
      (fun r => Users.auth_okay r.2 "alice" (strBytes "765705") none none) =
      some ("", hotpSt0) := by
  have h1 : Users.auth_okay hotpSt0 "alice" (strBytes "765705") none none =
    some ("", hotpSt0) := by decide
  refine ⟨h1, ?_⟩
  rw [h1, Option.some_bind, h1]

/-- C3: the bootstrap exception is not consumed: a HOTP user whose
`last_counter` is 0 accepts the counter-0 code ("462371" for this
secret), but because the counter update is applied only to a local copy,
the directory after the success still has `last_counter = 0` and the same
counter-0 code is accepted again, contradicting the spec's "exactly once"
and the update rule documented in the source. -/
theorem c3_counter0_code_accepted_twice :
    strBytes (calc_hotp aliceSecret 0) = strBytes "462371" ∧
    Users.auth_okay hotpSt0 "alice" (strBytes "462371") none none = some ("", hotpSt0) ∧
    (Users.auth_okay hotpSt0 "alice" (strBytes "462371") none none).bind
      (fun r => Users.auth_okay r.2 "alice" (strBytes "462371") none none) =
      some ("", hotpSt0) := by
  have h1 : Users.auth_okay hotpSt0 "alice" (strBytes "462371") none none =
    some ("", hotpSt0) := by decide
  exact ⟨by decide, h1, by rw [h1, Option.some_bind, h1]⟩

/-- C10: for a stored HOTP user the outcome of `auth_okay` and the
resulting directory are independent of the `totp_time` argument — the
HOTP branch never reads it (the source comment says `totp_time provided
is ignored`). -/
theorem c10_hotp_ignores_totp_time (st : UsersMap) (username : String) (u : UserInfo)
    (token : List Nat) (t1 t2 : Option Nat) (ph : Option (List Nat))
    (hu : Users.lookup st username = some u) (hm : u.auth_mode = AuthMode.hotp) :
    Users.auth_okay st username token t1 ph = Users.auth_okay st username token t2 ph := by
  simp [Users.auth_okay, hu, hm]

/-- Witness for C10 at a concrete directory: time absent versus a large
concrete time give the same result. -/
theorem c10_hotp_ignores_totp_time_witness :
    Users.auth_okay hotpSt0 "alice" [49, 50, 51, 52, 53, 54] none none =
      Users.auth_okay hotpSt0 "alice" [49, 50, 51, 52, 53, 54] (some 99999999) none :=
  c10_hotp_ignores_totp_time hotpSt0 "alice" ⟨AuthMode.hotp, b32encode aliceSecret, 0⟩
    [49, 50, 51, 52, 53, 54] none (some 99999999) none (by decide) rfl

/-- C7: in HMAC mode the call succeeds exactly when
`HMAC-SHA256(secret, psbt_hash or 32 zero bytes)` equals the token, fails
with `mismatch` otherwise, and in either case returns the stored
directory unchanged, so the stored record (and its `last_counter`) is
never modified. -/
theorem c7_hmac_mode_iff_and_frame (st : UsersMap) (username : String) (u : UserInfo)
    (token : List Nat) (tt : Option Nat) (ph : Option (List Nat))
    (hu : Users.lookup st username = some u) (hm : u.auth_mode = AuthMode.hmac) :
    (Users.auth_okay st username token tt ph = some ("", st) ↔
      hmac_sha256 (b32decode u.secret) (psbtOrZeros ph) = token) ∧
    (Users.auth_okay st username token tt ph = some ("mismatch", st) ↔
      hmac_sha256 (b32decode u.secret) (psbtOrZeros ph) ≠ token) ∧
    (∀ r st2, Users.auth_okay st username token tt ph = some (r, st2) →
      st2 = st ∧ Users.lookup st2 username = some u) := by
  have he := auth_okay_hmac st username u token tt ph hu hm
  rw [he]
  by_cases h : hmac_sha256 (b32decode u.secret) (psbtOrZeros ph) = token
  · refine ⟨by simp [h], by simp [h], ?_⟩
    intro r st2 hr
    simp only [if_pos h, Option.some.injEq, Prod.mk.injEq] at hr
    exact ⟨hr.2.symm, by rw [← hr.2]; exact hu⟩
  · refine ⟨by simp [h], by simp [h], ?_⟩
    intro r st2 hr
    simp only [if_neg h, Option.some.injEq, Prod.mk.injEq] at hr
    exact ⟨hr.2.symm, by rw [← hr.2]; exact hu⟩

/-- A stored HMAC-mode user (32-byte stored key, counter 0). -/
def hmacSt0 : UsersMap := [("bob", ⟨AuthMode.hmac, b32encode (List.replicate 32 7), 0⟩)]

/-- Witness for C7 at a concrete HMAC user and token. -/
theorem c7_hmac_mode_iff_and_frame_witness :
    Users.auth_okay hmacSt0 "bob" [1, 2, 3] none none = some ("", hmacSt0) ↔
      hmac_sha256 (b32decode (b32encode (List.replicate 32 7))) (psbtOrZeros none) =
        [1, 2, 3] :=
  (c7_hmac_mode_iff_and_frame hmacSt0 "bob" ⟨AuthMode.hmac, b32encode (List.replicate 32 7), 0⟩
    [1, 2, 3] none none (by decide) rfl).1

/-- C5 counterexample: the claim says any length-6 token containing a
non-digit yields the malformed-token failure; on the code a length-6
non-digit token such as `b"abcdef"` passes the length-only check and
falls through to candidate comparison, failing with `mismatch`
instead. -/
theorem c5_len6_nondigit_gives_mismatch :
    Users.auth_okay hotpSt0 "alice" (strBytes "abcdef") none none =
      some ("mismatch", hotpSt0) ∧ ("mismatch" : String) ≠ "expect otp" :=
  ⟨by decide, by decide⟩

/-- A stored TOTP user whose `last_counter` sits exactly at the epoch
floor constant 52622505 of shared/users.py:179. -/
def totpStA : UsersMap := [("tina", ⟨AuthMode.totp, b32encode aliceSecret, 52622505⟩)]

theorem scanCandidates_fst (st : UsersMap) (secret token : List Nat) (cs : List Nat) :
    (scanCandidates st secret token cs).1 = "" ∨
      (scanCandidates st secret token cs).1 = "mismatch" := by
  induction cs with
  | nil => right; rfl
  | cons c rest ih =>
      by_cases h : strBytes (calc_hotp secret c) = token
      · left; simp [scanCandidates, h]
      · simpa [scanCandidates, h] using ih

theorem nondigit_token_ne_code (secret token : List Nat) (c : Nat)
    (h : ∃ x ∈ token, x < 48 ∨ 57 < x) :
    strBytes (calc_hotp secret c) ≠ token := by
  obtain ⟨x, hx, hxr⟩ := h
  intro heq
  have hd := calc_hotp_digits secret c x (heq ▸ hx)
  omega

/-- C5 amended: the code checks only the token length (shared/users.py:
167-168).  For every stored HOTP or TOTP user: a token whose length
differs from 6 fails with `expect otp` (MalformedToken); conversely a
call with a length-6 token never returns `expect otp`, whatever the mode
and time argument; and a length-6 token containing a byte outside the
ASCII digits can never equal a computed all-digit code, so a HOTP user
rejects it with `mismatch`, and a TOTP user with a time at or above the
epoch floor rejects it with `replay` or `mismatch` - in neither case with
the malformed-token failure the original claim asserts. -/
theorem c5_token_shape_amended (st : UsersMap) (username : String) (u : UserInfo)
    (token : List Nat) (tt : Option Nat) (ph : Option (List Nat))
    (hu : Users.lookup st username = some u) :
    (u.auth_mode ≠ AuthMode.hmac → token.length ≠ 6 →
      Users.auth_okay st username token tt ph = some ("expect otp", st)) ∧
    (token.length = 6 → ∀ r st2,
      Users.auth_okay st username token tt ph = some (r, st2) → r ≠ "expect otp") ∧
    (u.auth_mode = AuthMode.hotp → token.length = 6 →
      (∃ x ∈ token, x < 48 ∨ 57 < x) →
      Users.auth_okay st username token tt ph = some ("mismatch", st)) ∧
    (u.auth_mode = AuthMode.totp → token.length = 6 →
      (∃ x ∈ token, x < 48 ∨ 57 < x) → ∀ t : Nat, tt = some t → 52622505 ≤ t →
      Users.auth_okay st username token tt ph = some ("replay", st) ∨
      Users.auth_okay st username token tt ph = some ("mismatch", st)) := by
  refine ⟨?_, ?_, ?_, ?_⟩
  · intro hm hl
    exact auth_okay_badlen st username u token tt ph hu hm hl
  · intro hl r st2 hr
    rcases hmode : u.auth_mode with _ | _ | _
    · rcases tt with _ | t
      · rw [auth_okay_totp_none st username u token ph hu hmode hl] at hr
        cases hr
      · by_cases ht : t < 52622505
        · rw [auth_okay_totp_range st username u token t ph hu hmode hl ht] at hr
          simp only [Option.some.injEq, Prod.mk.injEq] at hr
          obtain ⟨hr1, -⟩ := hr
          subst hr1
          decide
        · rw [auth_okay_totp_main st username u token t ph hu hmode hl (by omega)] at hr
          by_cases hc : totp_candidates t u.last_counter = []
          · rw [if_pos hc] at hr
            simp only [Option.some.injEq, Prod.mk.injEq] at hr
            obtain ⟨hr1, -⟩ := hr
            subst hr1
            decide
          · rw [if_neg hc] at hr
            simp only [Option.some.injEq] at hr
            have hr1 : (scanCandidates st (b32decode u.secret) token
                (totp_candidates t u.last_counter)).1 = r := by rw [hr]
            rcases scanCandidates_fst st (b32decode u.secret) token
                (totp_candidates t u.last_counter) with h | h <;>
              · rw [hr1] at h
                subst h
                decide
    · rw [auth_okay_hotp st username u token tt ph hu hmode hl] at hr
      simp only [Option.some.injEq] at hr
      have hr1 : (scanCandidates st (b32decode u.secret) token
          (hotp_candidates u.last_counter)).1 = r := by rw [hr]
      rcases scanCandidates_fst st (b32decode u.secret) token
          (hotp_candidates u.last_counter) with h | h <;>
        · rw [hr1] at h
          subst h
          decide
    · rw [auth_okay_hmac st username u token tt ph hu hmode] at hr
      simp only [Option.some.injEq, Prod.mk.injEq] at hr
      obtain ⟨hr1, -⟩ := hr
      by_cases h : hmac_sha256 (b32decode u.secret) (psbtOrZeros ph) = token
      · rw [if_pos h] at hr1
        subst hr1
        decide
      · rw [if_neg h] at hr1
        subst hr1
        decide
  · rintro hmode hl hnd
    rw [auth_okay_hotp st username u token tt ph hu hmode hl,
      scanCandidates_mismatch st (b32decode u.secret) token _
        (fun c _ => nondigit_token_ne_code (b32decode u.secret) token c hnd)]
  · rintro hmode hl hnd t rfl ht
    rw [auth_okay_totp_main st username u token t ph hu hmode hl ht]
    by_cases hc : totp_candidates t u.last_counter = []
    · left
      rw [if_pos hc]
    · right
      rw [if_neg hc, scanCandidates_mismatch st (b32decode u.secret) token _
        (fun c _ => nondigit_token_ne_code (b32decode u.secret) token c hnd)]

/-- Witness for the amended C5 at concrete tokens: a 1-byte token is
malformed; a length-6 token reaching the range failure shows a non-otp
outcome; the length-6 alphabetic token fails with mismatch for the HOTP
user and with replay-or-mismatch for the TOTP user. -/
theorem c5_token_shape_amended_witness :
    Users.auth_okay hotpSt0 "alice" [49] none none = some ("expect otp", hotpSt0) ∧
    ("range" : String) ≠ "expect otp" ∧
    Users.auth_okay hotpSt0 "alice" [97, 98, 99, 100, 101, 102] none none =
      some ("mismatch", hotpSt0) ∧
    (Users.auth_okay totpStA "tina" [97, 98, 99, 100, 101, 102] (some 52622507) none =
        some ("replay", totpStA) ∨
      Users.auth_okay totpStA "tina" [97, 98, 99, 100, 101, 102] (some 52622507) none =
        some ("mismatch", totpStA)) :=
  by
  have huT : Users.lookup totpStA "tina" =
      some ⟨AuthMode.totp, b32encode aliceSecret, 52622505⟩ := by decide
  have hrange : Users.auth_okay totpStA "tina" [48, 48, 48, 48, 48, 48] (some 99) none =
      some ("range", totpStA) := by decide
  refine ⟨?_, ?_, ?_, ?_⟩
  · exact (c5_token_shape_amended hotpSt0 "alice" ⟨AuthMode.hotp, b32encode aliceSecret, 0⟩
      [49] none none (by decide)).1 (by decide) (by decide)
  · exact (c5_token_shape_amended totpStA "tina" _
      [48, 48, 48, 48, 48, 48] (some 99) none huT).2.1 rfl "range" totpStA hrange
  · exact (c5_token_shape_amended hotpSt0 "alice" ⟨AuthMode.hotp, b32encode aliceSecret, 0⟩
      [97, 98, 99, 100, 101, 102] none none (by decide)).2.2.1 rfl rfl
      ⟨97, by decide, by decide⟩
  · exact (c5_token_shape_amended totpStA "tina" _
      [97, 98, 99, 100, 101, 102] (some 52622507) none huT).2.2.2 rfl rfl
      ⟨97, by decide, by decide⟩ 52622507 rfl (by decide)

/-- C9 counterexample: with `totp_time` absent a TOTP user's call can
still return one of the specified failure outcomes — a token failing the
length check returns `expect otp` (MalformedToken) before the time is
ever compared. -/
theorem c9_absent_time_can_return_outcome :
    Users.auth_okay totpStA "tina" [] none none = some ("expect otp", totpStA) := by
  decide

/-- C9 amended: for a stored TOTP user and any 6-byte token, a call with
`totp_time` absent reaches the comparison `totp_time < 52622505` on
`None` and raises (modelled as `none`, no outcome value); only calls
failing the earlier length check return an outcome.  A caller must
supply `totp_time` for every TOTP authentication with a length-6
token. -/
theorem c9_absent_time_raises (st : UsersMap) (username : String) (u : UserInfo)
    (token : List Nat) (ph : Option (List Nat))
    (hu : Users.lookup st username = some u) (hm : u.auth_mode = AuthMode.totp)
    (hl : token.length = 6) :
    Users.auth_okay st username token none ph = none :=
  auth_okay_totp_none st username u token ph hu hm hl

/-- Witness for the amended C9: a concrete TOTP user and 6-byte token. -/
theorem c9_absent_time_raises_witness :
    Users.auth_okay totpStA "tina" [48, 48, 48, 48, 48, 48] none none = none :=
  c9_absent_time_raises totpStA "tina" ⟨AuthMode.totp, b32encode aliceSecret, 52622505⟩
    [48, 48, 48, 48, 48, 48] none (by decide) rfl rfl

theorem totp_candidates_eq (t lc : Nat) :
    totp_candidates t lc = [t, t - 1, t - 2].filter (fun s => lc < s) := by
  by_cases h0 : lc < t <;> by_cases h1 : lc < t - 1 <;> by_cases h2 : lc < t - 2 <;>
    simp [totp_candidates, show List.range 3 = [0, 1, 2] from rfl,
      List.filterMap_cons, List.filter_cons, h0, h1, h2]

theorem totp_candidates_gt (t lc : Nat) : ∀ c ∈ totp_candidates t lc, lc < c := by
  intro c hc
  simp only [totp_candidates, List.mem_filterMap, List.mem_range] at hc
  obtain ⟨i, _, hi⟩ := hc
  by_cases h : lc < t - i
  · rw [if_pos h] at hi
    injection hi with hi2
    rw [← hi2]
    exact h
  · rw [if_neg h] at hi
    cases hi

theorem totp_candidates_mem (t lc c : Nat) (h1 : lc < c) (h2 : c ≤ t) (h3 : t ≤ c + 2) :
    c ∈ totp_candidates t lc := by
  simp only [totp_candidates, List.mem_filterMap, List.mem_range]
  refine ⟨t - c, by omega, ?_⟩
  rw [show t - (t - c) = c by omega, if_pos h1]

/-- C4 counterexample: the claim says a correct code for slot `T+1`
succeeds whenever `time_value = T+2` or later.  With `T = 52622505` the
code for slot `T+1` (which is "179222" for this secret) presented at
`time_value = T+4` fails with `mismatch`: the candidate window is only
`{T+4, T+3, T+2}`. -/
theorem c4_slot_succ_fails_at_time_plus4 :
    strBytes (calc_hotp aliceSecret (52622505 + 1)) = strBytes "179222" ∧
    Users.auth_okay totpStA "tina" (strBytes "179222") (some (52622505 + 4)) none =
      some ("mismatch", totpStA) :=
  ⟨by decide, by decide⟩

/-- C4 amended: for a stored TOTP user with `last_counter = T` and a
6-byte token: a `time_value` below the epoch floor 52622505 fails with
`range` (OutOfRange); the candidate slots are exactly
`[time_value, time_value-1, time_value-2]` filtered to those strictly
greater than `T`, in that order; an empty candidate set fails with
`replay` (Replayed); a correct code for slot `T+1` or `T+2` succeeds when
`time_value` is `T+2` or `T+3` (in range) — not for every later
`time_value`, which is the correction; every candidate slot exceeds `T`,
and a token matching no candidate's code (in particular a code for a slot
at or before `T` that does not collide with a fresher slot's code) fails
with `replay` or `mismatch`. -/
theorem c4_totp_window_amended (st : UsersMap) (username : String) (u : UserInfo)
    (token : List Nat) (t : Nat)
    (hu : Users.lookup st username = some u) (hm : u.auth_mode = AuthMode.totp) :
    (t < 52622505 → token.length = 6 →
      Users.auth_okay st username token (some t) none = some ("range", st)) ∧
    (totp_candidates t u.last_counter =
      [t, t - 1, t - 2].filter (fun s => u.last_counter < s)) ∧
    (52622505 ≤ t → token.length = 6 → totp_candidates t u.last_counter = [] →
      Users.auth_okay st username token (some t) none = some ("replay", st)) ∧
    (52622505 ≤ t → (t = u.last_counter + 2 ∨ t = u.last_counter + 3) →
      (token = strBytes (calc_hotp (b32decode u.secret) (u.last_counter + 1)) ∨
       token = strBytes (calc_hotp (b32decode u.secret) (u.last_counter + 2))) →
      Users.auth_okay st username token (some t) none = some ("", st)) ∧
    (∀ c ∈ totp_candidates t u.last_counter, u.last_counter < c) ∧
    (52622505 ≤ t → token.length = 6 →
      (∀ c ∈ totp_candidates t u.last_counter,
        strBytes (calc_hotp (b32decode u.secret) c) ≠ token) →
      Users.auth_okay st username token (some t) none = some ("replay", st) ∨
      Users.auth_okay st username token (some t) none = some ("mismatch", st)) := by
  refine ⟨?_, totp_candidates_eq t u.last_counter, ?_, ?_,
    totp_candidates_gt t u.last_counter, ?_⟩
  · intro ht hl
    exact auth_okay_totp_range st username u token t none hu hm hl ht
  · intro ht hl hc
    rw [auth_okay_totp_main st username u token t none hu hm hl ht, if_pos hc]
  · intro ht htv htok
    have hl : token.length = 6 := by
      rcases htok with h | h <;> rw [h, calc_hotp_len]
    obtain ⟨s, hs_eq, hmem⟩ :
        ∃ s, token = strBytes (calc_hotp (b32decode u.secret) s) ∧
          s ∈ totp_candidates t u.last_counter := by
      rcases htok with h | h
      · exact ⟨u.last_counter + 1, h,
          totp_candidates_mem t u.last_counter (u.last_counter + 1)
            (by omega) (by omega) (by omega)⟩
      · exact ⟨u.last_counter + 2, h,
          totp_candidates_mem t u.last_counter (u.last_counter + 2)
            (by omega) (by omega) (by omega)⟩
    have hne : totp_candidates t u.last_counter ≠ [] := List.ne_nil_of_mem hmem
    rw [auth_okay_totp_main st username u token t none hu hm hl ht, if_neg hne,
      scanCandidates_hit st (b32decode u.secret) token _ s hmem hs_eq.symm]
  · intro ht hl hno
    rw [auth_okay_totp_main st username u token t none hu hm hl ht]
    by_cases hc : totp_candidates t u.last_counter = []
    · left; rw [if_pos hc]
    · right
      rw [if_neg hc, scanCandidates_mismatch st (b32decode u.secret) token _ hno]

/-- A stored TOTP user whose `last_counter` is well above any candidate
slot reachable from a time at the epoch floor. -/
def totpStB : UsersMap := [("tina", ⟨AuthMode.totp, b32encode aliceSecret, 52622515⟩)]

/-- Witness for the amended C4, exercising the range, replay, success and
used-slot branches at concrete directories and times. -/
theorem c4_totp_window_amended_witness :
    Users.auth_okay totpStA "tina" [48, 48, 48, 48, 48, 48] (some 99) none =
      some ("range", totpStA) ∧
    Users.auth_okay totpStB "tina" [48, 48, 48, 48, 48, 48] (some 52622505) none =
      some ("replay", totpStB) ∧
    Users.auth_okay totpStA "tina" (strBytes (calc_hotp aliceSecret 52622506))
      (some 52622507) none = some ("", totpStA) ∧
    (Users.auth_okay totpStA "tina" (strBytes (calc_hotp aliceSecret 52622505))
        (some 52622507) none = some ("replay", totpStA) ∨
      Users.auth_okay totpStA "tina" (strBytes (calc_hotp aliceSecret 52622505))
        (some 52622507) none = some ("mismatch", totpStA)) := by
  refine ⟨?_, ?_, ?_, ?_⟩
  · exact (c4_totp_window_amended totpStA "tina"
      ⟨AuthMode.totp, b32encode aliceSecret, 52622505⟩
      [48, 48, 48, 48, 48, 48] 99 (by decide) rfl).1 (by decide) rfl
  · exact (c4_totp_window_amended totpStB "tina"
      ⟨AuthMode.totp, b32encode aliceSecret, 52622515⟩
      [48, 48, 48, 48, 48, 48] 52622505 (by decide) rfl).2.2.1 (by decide) rfl (by decide)
  · exact (c4_totp_window_amended totpStA "tina"
      ⟨AuthMode.totp, b32encode aliceSecret, 52622505⟩
      (strBytes (calc_hotp aliceSecret 52622506)) 52622507 (by decide) rfl).2.2.2.1
      (by decide) (Or.inl (by decide)) (Or.inl rfl)
  · exact (c4_totp_window_amended totpStA "tina"
      ⟨AuthMode.totp, b32encode aliceSecret, 52622505⟩
      (strBytes (calc_hotp aliceSecret 52622505)) 52622507 (by decide) rfl).2.2.2.2.2
      (by decide) (calc_hotp_len aliceSecret 52622505) (by decide)

/-- Big-endian numeric value of a byte list. -/
def beNum (l : List Nat) : Nat := l.foldl (fun acc b => acc * 256 + b) 0

/-- RFC 4226 computation transcribed from the spec's own words (section
4.3): HMAC-SHA1 of the big-endian 8-byte counter, dynamic truncation
using the low nibble of the last byte as an offset into the 20-byte
digest, the 4 bytes at that offset read as a big-endian unsigned 31-bit
integer (top bit masked off), reduced mod 1000000 and left-zero-padded to
6 digits.  Compared against the source's `calc_hotp` below. -/
def hotp_rfc4226 (secret : List Nat) (counter : Nat) : String :=
  let digest := hmac_sha1 secret (be64 counter)
  let offset := digest.getLast?.getD 0 % 16
  let word := beNum [digest.getD offset 0, digest.getD (offset + 1) 0,
    digest.getD (offset + 2) 0, digest.getD (offset + 3) 0] % 2 ^ 31
  String.mk ((List.range 6).map (fun i => Char.ofNat (48 + word % 1000000 / 10 ^ (5 - i) % 10)))

theorem sha1Compress_length (h b : List Nat) : (sha1Compress h b).length = 5 := by
  unfold sha1Compress
  obtain ⟨a, b2, c, d, e⟩ := sha1Rounds (sha1Schedule b) 0
    (h.getD 0 0, h.getD 1 0, h.getD 2 0, h.getD 3 0, h.getD 4 0)
  rfl

theorem sha1_foldl_length (blocks : List (List Nat)) (init : List Nat) (h : init.length = 5) :
    (blocks.foldl sha1Compress init).length = 5 := by
  induction blocks generalizing init with
  | nil => simpa
  | cons b rest ih => exact ih _ (sha1Compress_length init b)

theorem flatten_map_wordBytesBE (l : List Nat) :
    ((l.map wordBytesBE).flatten).length = 4 * l.length := by
  induction l with
  | nil => rfl
  | cons a rest ih =>
      simp only [List.map_cons, List.flatten_cons, List.length_append, ih,
        List.length_cons, wordBytesBE]
      simp
      omega

theorem sha1_length (msg : List Nat) : (sha1 msg).length = 20 := by
  have h5 := sha1_foldl_length (mdBlocks msg)
    [1732584193, 4023233417, 2562383102, 271733878, 3285377520] rfl
  unfold sha1
  rw [flatten_map_wordBytesBE, h5]

theorem hmac_sha1_length (key msg : List Nat) : (hmac_sha1 key msg).length = 20 := by
  unfold hmac_sha1 hmacWith
  exact sha1_length _

theorem getLast_eq_getD19 (l : List Nat) (h : l.length = 20) :
    l.getLast?.getD 0 = l.getD 19 0 := by
  rw [List.getLast?_eq_getElem?, h, List.getD_eq_getElem?_getD]

theorem sixDigit_spec_eq (v : Nat) :
    List.map Char.ofNat (sixDigitBytes v) =
      List.map (fun i => Char.ofNat (48 + v / 10 ^ (5 - i) % 10)) (List.range 6) := by
  simp only [show List.range 6 = [0, 1, 2, 3, 4, 5] from rfl, List.map_cons, List.map_nil,
    sixDigitBytes]
  norm_num

theorem calc_hotp_eq_rfc4226 (secret : List Nat) (counter : Nat) :
    calc_hotp secret counter = hotp_rfc4226 secret counter := by
  simp only [calc_hotp, hotp_rfc4226, hotp_value]
  rw [getLast_eq_getD19 _ (hmac_sha1_length secret (be64 counter))]
  have ho : (hmac_sha1 secret (be64 counter)).getD 19 0 &&& 15 =
      (hmac_sha1 secret (be64 counter)).getD 19 0 % 16 :=
    Nat.and_pow_two_sub_one_eq_mod _ 4
  rw [ho]
  have hw : ∀ a b c e : Nat,
      (a * 16777216 + b * 65536 + c * 256 + e) &&& 2147483647 =
        beNum [a, b, c, e] % 2 ^ 31 := by
    intro a b c e
    rw [show ((2147483647 : Nat)) = 2 ^ 31 - 1 from rfl, Nat.and_pow_two_sub_one_eq_mod]
    congr 1
    simp [beNum, List.foldl]
    ring
  rw [hw]
  exact congrArg String.mk (sixDigit_spec_eq _)

/-- Whether a `Users.create` call failed (raised an `AssertionError`). -/
def isErr {α : Type} : Except String α → Bool
  | .error _ => true
  | .ok _ => false

theorem find_append_single (st : UsersMap) (k : String) (v : UserInfo)
    (h : ∀ p ∈ st, ¬ (p.1 == k) = true) :
    (st ++ [(k, v)]).find? (fun p => p.1 == k) = some (k, v) := by
  induction st with
  | nil => simp [List.find?]
  | cons q rest ih =>
      rw [List.cons_append, @List.find?_cons_of_neg _ (fun p => p.1 == k) q
        (rest ++ [(k, v)]) (h q (by simp))]
      exact ih (fun p hp => h p (by simp [hp]))

theorem lookup_dictSet_new (st : UsersMap) (k : String) (v : UserInfo)
    (h : Users.lookup st k = none) : Users.lookup (dictSet st k v) k = some v := by
  have hfind : st.find? (fun p => p.1 == k) = none := by
    unfold Users.lookup at h
    cases hf : st.find? (fun p => p.1 == k) with
    | none => rfl
    | some p => rw [hf] at h; simp at h
  have hnom : ∀ p ∈ st, ¬ (p.1 == k) = true := List.find?_eq_none.mp hfind
  have hany : st.any (fun p => p.1 == k) = false := by
    rw [List.any_eq_false]
    exact hnom
  unfold dictSet
  rw [hany]
  simp only [Bool.false_eq_true, if_false]
  unfold Users.lookup
  rw [find_append_single st k v hnom]
  rfl

/-- C8: `Users.create` fails for every username of length 1 or less, for
every username longer than the configured maximum, for every username
whose first character is the reserved sentinel `_`, for every username
already present in the directory, and whenever the directory already
holds 30 (or more) users; when it succeeds, the stored record for the new
username has `last_counter = 0`. -/
theorem c8_create_checks (maxLen : Nat) (kdf : List Nat → List Nat) (rng : List Nat)
    (st : UsersMap) (username : String) (mode : AuthMode) (secret : List Nat) :
    (username.length ≤ 1 →
      isErr (Users.create maxLen kdf rng st username mode secret) = true) ∧
    (maxLen < username.length →
      isErr (Users.create maxLen kdf rng st username mode secret) = true) ∧
    (username.data.getD 0 ' ' = '_' →
      isErr (Users.create maxLen kdf rng st username mode secret) = true) ∧
    (Users.lookup st username ≠ none →
      isErr (Users.create maxLen kdf rng st username mode secret) = true) ∧
    (30 ≤ st.length →
      isErr (Users.create maxLen kdf rng st username mode secret) = true) ∧
    (∀ st2 picked,
      Users.create maxLen kdf rng st username mode secret = Except.ok (st2, picked) →
      (Users.lookup st2 username).map UserInfo.last_counter = some 0) := by
  refine ⟨?_, ?_, ?_, ?_, ?_, ?_⟩
  · intro h
    unfold Users.create
    rw [if_pos (by omega)]
    rfl
  · intro h
    unfold Users.create
    rw [if_pos (by omega)]
    rfl
  · intro h
    unfold Users.create
    by_cases h1 : ¬ (1 < username.length ∧ username.length ≤ maxLen)
    · rw [if_pos h1]; rfl
    · rw [if_neg h1, if_pos h]; rfl
  · intro h
    have hs : (Users.lookup st username).isSome = true := Option.isSome_iff_ne_none.mpr h
    unfold Users.create
    by_cases h1 : ¬ (1 < username.length ∧ username.length ≤ maxLen)
    · rw [if_pos h1]; rfl
    · rw [if_neg h1]
      by_cases h2 : username.data.getD 0 ' ' = '_'
      · rw [if_pos h2]; rfl
      · rw [if_neg h2, if_pos hs]; rfl
  · intro h
    unfold Users.create isErr
    split_ifs <;> first | rfl | omega
  · intro st2 picked hok
    unfold Users.create at hok
    split_ifs at hok <;>
      first
        | exact Except.noConfusion hok
        | (simp only [Except.ok.injEq, Prod.mk.injEq] at hok
           have hnone : Users.lookup st username = none :=
             Option.not_isSome_iff_eq_none.mp (by assumption)
           rw [← hok.1, lookup_dictSet_new st username _ hnone]
           rfl)

/-- C6: the source's `calc_hotp` agrees with the RFC 4226 description in
the spec for every secret of length at least 10 and every 64-bit
counter (the equality in fact needs neither bound; they delimit the
claim's domain), always yields a 6-character digit string, and matches
the two known vectors for secret `b"abcdefghij"`.  Determinism is
inherent: the Lean function is pure. -/
theorem c6_hotp_rfc4226_vectors :
    (∀ (secret : List Nat) (counter : Nat), 10 ≤ secret.length → counter < 2 ^ 64 →
      calc_hotp secret counter = hotp_rfc4226 secret counter) ∧
    (∀ (secret : List Nat) (counter : Nat), (calc_hotp secret counter).length = 6) ∧
    calc_hotp (strBytes "abcdefghij") 1 = "765705" ∧
    calc_hotp (strBytes "abcdefghij") 2 = "816065" :=
  ⟨fun s c _ _ => calc_hotp_eq_rfc4226 s c, fun _ _ => rfl, by decide, by decide⟩

/-- Witness for C6 at a concrete in-domain secret and counter. -/
theorem c6_hotp_rfc4226_vectors_witness :
    calc_hotp (List.replicate 10 7) 12345 = hotp_rfc4226 (List.replicate 10 7) 12345 ∧
    (calc_hotp (List.replicate 10 7) 12345).length = 6 :=
  ⟨c6_hotp_rfc4226_vectors.1 (List.replicate 10 7) 12345 (by decide) (by decide),
   c6_hotp_rfc4226_vectors.2.1 (List.replicate 10 7) 12345⟩

def kdf0 : List Nat → List Nat := fun _ => List.replicate 32 0

def rng0 : List Nat := List.replicate 10 0

/-- Witness for C8: each rejection discharged at a concrete call, and a
concrete successful creation stores `last_counter = 0`. -/
theorem c8_create_checks_witness :
    isErr (Users.create 16 kdf0 rng0 [] "a" AuthMode.hotp aliceSecret) = true ∧
    isErr (Users.create 16 kdf0 rng0 [] "abcdefghijklmnopq" AuthMode.hotp aliceSecret) = true ∧
    isErr (Users.create 16 kdf0 rng0 [] "_ab" AuthMode.hotp aliceSecret) = true ∧
    isErr (Users.create 16 kdf0 rng0 hotpSt0 "alice" AuthMode.hotp aliceSecret) = true ∧
    isErr (Users.create 16 kdf0 rng0
      (List.replicate 30 ("u", ⟨AuthMode.hotp, b32encode aliceSecret, 0⟩)) "ab"
      AuthMode.hotp aliceSecret) = true ∧
    (Users.lookup (dictSet [] "ab" ⟨AuthMode.hotp, b32encode aliceSecret, 0⟩)
      "ab").map UserInfo.last_counter = some 0 :=
  ⟨(c8_create_checks 16 kdf0 rng0 [] "a" AuthMode.hotp aliceSecret).1 (by decide),
   (c8_create_checks 16 kdf0 rng0 [] "abcdefghijklmnopq" AuthMode.hotp aliceSecret).2.1
     (by decide),
   (c8_create_checks 16 kdf0 rng0 [] "_ab" AuthMode.hotp aliceSecret).2.2.1 (by decide),
   (c8_create_checks 16 kdf0 rng0 hotpSt0 "alice" AuthMode.hotp aliceSecret).2.2.2.1
     (by decide),
   (c8_create_checks 16 kdf0 rng0
     (List.replicate 30 ("u", ⟨AuthMode.hotp, b32encode aliceSecret, 0⟩)) "ab"
     AuthMode.hotp aliceSecret).2.2.2.2.1 (by decide),
   (c8_create_checks 16 kdf0 rng0 [] "ab" AuthMode.hotp aliceSecret).2.2.2.2.2
     (dictSet [] "ab" ⟨AuthMode.hotp, b32encode aliceSecret, 0⟩) [] rfl⟩
